import Mathlib

/-!
# Verification of the PINO training orchestration script (train_pino-simple.py)

A shallow embedding of the orchestration layer of the PINO training script:
the evaluation loop `eval_ns`, the training loop `train_ns` (loss combination,
stride computation, strided-slice subsampling, checkpoint/eval cadence, model
mode), and the run setup `subprocess` (seeding and dataset construction).

Tensors, the FNO model, the Lp loss and the PDE residual routine live in
collaborator modules and are abstracted as parameters; scalar loss values are
modelled as rationals (exact arithmetic standing in for the framework's
floating-point scalars). Fallible Python operations (integer division by
zero, slicing with step zero) are modelled with `Except`.
-/

set_option autoImplicit false

namespace PinoTrain

/-! ## Python arithmetic and slicing semantics

`pyFloorDiv` models Python's `//` on non-negative integers: it raises
`ZeroDivisionError` when the divisor is `0`, otherwise floor-divides.

`sliceIndices n step` models the index set selected by the Python slice
`x[::step]` on an axis of length `n` for a non-negative `step`: it raises
`ValueError` when `step = 0`; otherwise it selects indices
`0, step, 2*step, ...` below `n`, i.e. `ceil(n/step)` many of them
(element `j` of the result views index `j*step` of the input).
-/

def pyFloorDiv (a b : ℕ) : Except String ℕ :=
  if b = 0 then .error "ZeroDivisionError: integer division or modulo by zero"
  else .ok (a / b)

def sliceIndices (n step : ℕ) : Except String (List ℕ) :=
  if step = 0 then .error "ValueError: slice step cannot be zero"
  else .ok ((List.range ((n + step - 1) / step)).map (· * step))

def sliceLen (n step : ℕ) : Except String ℕ :=
  (sliceIndices n step).map List.length

/-! ## Stride computation and subsampling (train_ns, lines 64-65 and 100)

Resolutions are triples `(res[0], res[1], res[2])` of the Python 3-lists
`pde_res` / `data_res` (two spatial axes, one temporal axis).

```
s_step = pde_res[0] // data_res[0]
t_step = (pde_res[2] - 1) // (data_res[2] - 1)
...
u_pred = out[:, ::s_step, ::s_step, ::t_step]
```
-/

abbrev Res3 := ℕ × ℕ × ℕ

def computeSteps (pde_res data_res : Res3) : Except String (ℕ × ℕ) :=
  match pyFloorDiv pde_res.1 data_res.1 with
  | .error e => .error e
  | .ok s_step =>
    match pyFloorDiv (pde_res.2.2 - 1) (data_res.2.2 - 1) with
    | .error e => .error e
    | .ok t_step => .ok (s_step, t_step)

/-- The spatial/temporal shape of `out[:, ::s_step, ::s_step, ::t_step]` for an
output `out` of (batchless) shape `shape`, together with the list of temporal
indices the slice selects. -/
def subsampleShape (shape : Res3) (s_step t_step : ℕ) :
    Except String (Res3 × List ℕ) :=
  match sliceIndices shape.1 s_step, sliceIndices shape.2.1 s_step,
        sliceIndices shape.2.2 t_step with
  | .ok ix0, .ok ix1, .ok ix2 =>
    .ok ((ix0.length, ix1.length, ix2.length), ix2)
  | .error e, _, _ => .error e
  | _, .error e, _ => .error e
  | _, _, .error e => .error e

/-- The whole subsampling pipeline of `train_ns`: compute the strides from the
configured resolutions, then take the strided slice of a model output of shape
`pde_res`. Returns the resulting spatial/temporal shape and the selected
temporal indices. -/
def subsamplePlan (pde_res data_res : Res3) :
    Except String (Res3 × List ℕ) :=
  match computeSteps pde_res data_res with
  | .error e => .error e
  | .ok (s_step, t_step) => subsampleShape pde_res s_step t_step

/-! ## Evaluator (`eval_ns`, lines 27-40)

```
@torch.no_grad()
def eval_ns(model, val_loader, criterion, device):
    model.eval()
    val_err = 0.0
    for u, a in val_loader:
        u, a = u.to(device), a.to(device)
        out = model(a)
        val_loss = criterion(out, u)
        val_err += val_loss.item()
    avg_err = val_err / len(val_loader)
    return avg_err
```

The model and criterion are abstract; a batch is a pair `(u, a)` of
ground-truth and input tensors of an abstract tensor type `T`; the final
division raises `ZeroDivisionError` when the loader holds zero batches.
The `@torch.no_grad()` decorator and `model.eval()` have no numeric effect
here: the model is applied as a pure function (no parameter is mutated and no
gradient is produced); the mode switch itself is tracked by the training-loop
trace below. -/

def eval_ns {T : Type} (model : T → T) (val_loader : List (T × T))
    (criterion : T → T → ℚ) : Except String ℚ :=
  let val_err := val_loader.foldl (fun acc b => acc + criterion (model b.2) b.1) 0
  if val_loader.length = 0 then
    .error "ZeroDivisionError: float division by zero"
  else
    .ok (val_err / (val_loader.length : ℚ))

/-! ## Per-iteration loss computation (`train_ns`, lines 98-112)

```
out = model(a)
u_pred = out[:, ::s_step, ::s_step, ::t_step]
data_loss = lploss(u_pred, u)
if f_weight != 0.0:
    u0  = a[:, :, :, 0, -1]
    loss_ic, loss_f = PINO_loss3d(out, u0, forcing, v, t_duration)
    ...
else:
    loss_ic = loss_f = 0.0
loss = data_loss * xy_weight + loss_f * f_weight + loss_ic * ic_weight
```

The tensor-level collaborators (the FNO model, the strided slice, the relative
Lp loss and the PDE residual routine `PINO_loss3d`, already specialised to the
forcing field, viscosity and horizon) are abstracted into a record `Collab`.
-/

structure Collab (T : Type) where
  model : T → T
  subsample : T → T
  lploss : T → T → ℚ
  ic_of : T → T
  PINO_loss3d : T → T → ℚ × ℚ

structure StepResult where
  data_loss : ℚ
  loss_ic : ℚ
  loss_f : ℚ
  loss : ℚ
  pinoInvoked : Bool
  deriving Repr, DecidableEq

def trainStepLoss {T : Type} (xy_weight f_weight ic_weight : ℚ)
    (C : Collab T) (u a : T) : StepResult :=
  let out := C.model a
  let u_pred := C.subsample out
  let data_loss := C.lploss u_pred u
  let branch : ℚ × ℚ × Bool :=
    if f_weight ≠ 0 then
      let u0 := C.ic_of a
      let p := C.PINO_loss3d out u0
      (p.1, p.2, true)
    else
      (0, 0, false)
  { data_loss := data_loss
    loss_ic := branch.1
    loss_f := branch.2.1
    loss := data_loss * xy_weight + branch.2.1 * f_weight + branch.1 * ic_weight
    pinoInvoked := branch.2.2 }

/-! ## Training-loop trace (`train_ns`, lines 67-68, 88-134)

The control-flow skeleton of the training loop: per iteration `e` of
`range(num_iter)` the loop runs the forward/backward pass (with the model in
whatever train/eval mode it currently has — nothing in the file ever calls
`model.train()`), then

```
if e % eval_step == 0:
    eval_err = eval_ns(model, val_loader, lploss, device)   # calls model.eval()
...
if e % save_step == 0:
    ckpt_path = os.path.join(ckpt_dir, f'model-{e}.pt')
    save_ckpt(ckpt_path, model, optimizer)
```

with `ckpt_dir = os.path.join('exp', config['log']['logdir'], 'ckpts')`
(the two nested `os.path.join` calls of lines 67-68 and 133).
The trace records, per iteration: its index, the mode the forward pass ran in
(`true` = training mode, PyTorch's default for a freshly constructed model;
`false` = evaluation mode), whether `eval_ns` ran, and the checkpoint path
written (if any). The numeric losses do not influence the control flow and
live in `trainStepLoss` above. -/

def ckptPath (logdir : String) (e : ℕ) : String :=
  "exp/" ++ logdir ++ "/ckpts/model-" ++ toString e ++ ".pt"

structure IterLog where
  iter : ℕ
  forwardMode : Bool
  evalRan : Bool
  saved : Option String
  deriving Repr, DecidableEq

/-- One iteration of the loop body: the forward pass sees the current mode;
`eval_ns` (when it runs) leaves the model in evaluation mode via
`model.eval()`, and nothing switches it back. Returns the iteration's log
entry and the mode the next iteration starts in. -/
def runIter (eval_step save_step : ℕ) (logdir : String) (mode : Bool)
    (e : ℕ) : IterLog × Bool :=
  let evalRan := e % eval_step = 0
  let mode' := if evalRan then false else mode
  let saved := if e % save_step = 0 then some (ckptPath logdir e) else none
  (⟨e, mode, evalRan, saved⟩, mode')

def loopFrom (eval_step save_step : ℕ) (logdir : String) :
    Bool → ℕ → ℕ → List IterLog
  | _, _, 0 => []
  | mode, e, n + 1 =>
    let step := runIter eval_step save_step logdir mode e
    step.1 :: loopFrom eval_step save_step logdir step.2 (e + 1) n

/-- The full control-flow trace of `train_ns`: iterations `0, ..., num_iter-1`,
starting with the model in training mode (its state when `subprocess` hands it
over). -/
def train_ns_trace (num_iter eval_step save_step : ℕ) (logdir : String) :
    List IterLog :=
  loopFrom eval_step save_step logdir true 0 num_iter

/-- The checkpoint writes a `train_ns` run performs: pairs of the iteration
index and the path handed to `save_ckpt` (together with the model and the
optimizer). -/
def savedCkpts (num_iter eval_step save_step : ℕ) (logdir : String) :
    List (ℕ × String) :=
  (train_ns_trace num_iter eval_step save_step logdir).filterMap
    (fun l => l.saved.map (fun p => (l.iter, p)))

/-! ## Run setup (`subprocess`, lines 141-217)

The effectful skeleton of `subprocess` as an event trace:

```
config = yaml.load(...)
...
torch.manual_seed(seed)
random.seed(seed)
if torch.cuda.is_available():
    torch.cuda.manual_seed_all(seed)
model = FNO3d(...)
if args.ckpt:
    ...
    model.load_state_dict(ckpt['model'])
if args.test: ... else: ...
```
-/

inductive Event where
  | loadConfig
  | seedTorch (seed : ℤ)
  | seedRandom (seed : ℤ)
  | seedCudaAll (seed : ℤ)
  | constructModel
  | loadCkpt (path : String)
  | runTest
  | runTrain
  deriving Repr, DecidableEq

def seedEvents (cudaAvailable : Bool) (seed : ℤ) : List Event :=
  [.seedTorch seed, .seedRandom seed]
    ++ (if cudaAvailable then [.seedCudaAll seed] else [])

def subprocessTrace (cudaAvailable : Bool) (seed : ℤ) (ckpt : Option String)
    (test : Bool) : List Event :=
  [.loadConfig] ++ seedEvents cudaAvailable seed ++ [.constructModel]
    ++ (match ckpt with | some p => [.loadCkpt p] | none => [])
    ++ [if test then .runTest else .runTrain]

/-! ## Dataset construction in `subprocess` (lines 174-180, 188-194, 198-204)

`KFDataset` is an external collaborator; what `subprocess` controls is the
argument tuple each construction site passes. The relevant configuration keys
are mirrored in a `Config` record. -/

structure DataConfig where
  paths : List String
  raw_res : Res3
  data_res : Res3
  pde_res : Res3
  n_data_samples : ℕ
  n_test_samples : ℕ
  offset : ℕ
  testoffset : ℕ
  t_duration : ℚ

structure TestConfig where
  batchsize : ℕ
  data_res : Res3

structure Config where
  data : DataConfig
  test : TestConfig

structure KFDatasetArgs where
  paths : List String
  raw_res : Res3
  data_res : Res3
  pde_res : Res3
  n_samples : ℕ
  offset : ℕ
  t_duration : ℚ

/-- The `KFDataset(...)` call of the test branch (lines 174-180). -/
def mkTestset (c : Config) : KFDatasetArgs :=
  { paths := c.data.paths
    raw_res := c.data.raw_res
    data_res := c.test.data_res
    pde_res := c.test.data_res
    n_samples := c.data.n_test_samples
    offset := c.data.testoffset
    t_duration := c.data.t_duration }

/-- The `KFDataset(...)` call building the training set (lines 188-194). -/
def mkTrainset (c : Config) : KFDatasetArgs :=
  { paths := c.data.paths
    raw_res := c.data.raw_res
    data_res := c.data.data_res
    pde_res := c.data.pde_res
    n_samples := c.data.n_data_samples
    offset := c.data.offset
    t_duration := c.data.t_duration }

/-- The `KFDataset(...)` call building the validation set (lines 198-204). -/
def mkValset (c : Config) : KFDatasetArgs :=
  { paths := c.data.paths
    raw_res := c.data.raw_res
    data_res := c.test.data_res
    pde_res := c.test.data_res
    n_samples := c.data.n_test_samples
    offset := c.data.testoffset
    t_duration := c.data.t_duration }

/-- A concrete instantiation of the abstract collaborators (tensor type `ℚ`)
used to evaluate the training-step embedding on closed inputs. Its PDE
residual routine returns large nonzero values on purpose. -/
def demoCollab : Collab ℚ :=
  { model := fun a => a + 1
    subsample := fun x => x
    lploss := fun o u => o - u
    ic_of := fun a => a
    PINO_loss3d := fun _ _ => (1000, 2000) }

/-! # Theorems -/

/-- C1: In every training iteration of `train_ns`, the total loss is combined
as `total = data_loss*xy_weight + pde_loss*f_weight + ic_loss*ic_weight`,
where `xy_weight`, `f_weight`, `ic_weight` are the configured weights
`config['train']['xy_loss']`, `config['train']['f_loss']`,
`config['train']['ic_loss']`. -/
theorem train_loss_combination {T : Type} (xy_weight f_weight ic_weight : ℚ)
    (C : Collab T) (u a : T) :
    (trainStepLoss xy_weight f_weight ic_weight C u a).loss =
      (trainStepLoss xy_weight f_weight ic_weight C u a).data_loss * xy_weight
        + (trainStepLoss xy_weight f_weight ic_weight C u a).loss_f * f_weight
        + (trainStepLoss xy_weight f_weight ic_weight C u a).loss_ic * ic_weight :=
  rfl

/-- C2: In every training iteration with `f_weight == 0`, the total loss
equals `data_loss*xy_weight` exactly, and the PDE-residual routine
`PINO_loss3d` is not invoked — this holds for every collaborator record `C`,
in particular regardless of what `C.PINO_loss3d` would have returned. -/
theorem fweight_zero_data_only {T : Type} (xy_weight f_weight ic_weight : ℚ)
    (C : Collab T) (u a : T) (hf : f_weight = 0) :
    (trainStepLoss xy_weight f_weight ic_weight C u a).loss =
      (trainStepLoss xy_weight f_weight ic_weight C u a).data_loss * xy_weight
      ∧ (trainStepLoss xy_weight f_weight ic_weight C u a).pinoInvoked = false := by
  subst hf
  simp [trainStepLoss]

/-- Witness for C2 at concrete inputs: weights `(xy, f, ic) = (3, 0, 5)`,
the demo collaborators (whose PDE routine returns `(1000, 2000)`), batch
`(u, a) = (1, 2)`. -/
theorem fweight_zero_data_only_witness :
    (0 : ℚ) = 0
      ∧ ((trainStepLoss 3 0 5 demoCollab (1 : ℚ) 2).loss =
            (trainStepLoss 3 0 5 demoCollab (1 : ℚ) 2).data_loss * 3
          ∧ (trainStepLoss 3 0 5 demoCollab (1 : ℚ) 2).pinoInvoked = false) :=
  ⟨rfl, fweight_zero_data_only 3 0 5 demoCollab 1 2 rfl⟩

/-- C3: With `pde_res = [8,8,9]` and `data_res = [4,4,5]`, `train_ns` computes
strides `s_step = 2` and `t_step = 2`, and subsampling a model output of shape
`pde_res` with `out[:, ::s_step, ::s_step, ::t_step]` yields spatial/temporal
shape `[4,4,5] = data_res`. -/
theorem toy_resolution_subsample :
    computeSteps (8, 8, 9) (4, 4, 5) = .ok (2, 2)
      ∧ (subsamplePlan (8, 8, 9) (4, 4, 5)).map Prod.fst = .ok (4, 4, 5) :=
  ⟨rfl, rfl⟩

/-- C9: `eval_ns` applied to an empty batch source divides the accumulated
error by the number of batches with no guard, raising `ZeroDivisionError`
instead of returning a value. -/
theorem eval_ns_empty_raises {T : Type} (model : T → T)
    (criterion : T → T → ℚ) :
    eval_ns model [] criterion =
      .error "ZeroDivisionError: float division by zero" :=
  rfl

/-- C10: in both test mode and train mode, the evaluation dataset (`testset`,
`valset`) is constructed with its `pde_res` argument equal to the
test-section `data_res`, so `pde_res = data_res` for the evaluator's data;
only the training dataset uses the distinct `data.data_res` / `data.pde_res`
pair. -/
theorem eval_datasets_resolution (c : Config) :
    (mkTestset c).pde_res = c.test.data_res
      ∧ (mkTestset c).data_res = c.test.data_res
      ∧ (mkValset c).pde_res = c.test.data_res
      ∧ (mkValset c).data_res = c.test.data_res
      ∧ (mkTrainset c).data_res = c.data.data_res
      ∧ (mkTrainset c).pde_res = c.data.pde_res :=
  ⟨rfl, rfl, rfl, rfl, rfl, rfl⟩

/-- Accumulating a sum with `foldl` starting from `c` yields `c` plus the sum
of the mapped list. -/
theorem foldl_add_eq_sum {α : Type} (f : α → ℚ) (l : List α) (c : ℚ) :
    l.foldl (fun acc b => acc + f b) c = c + (l.map f).sum := by
  induction l generalizing c with
  | nil => simp
  | cons x xs ih => simp [ih, add_assoc]

/-- C5: on a non-empty batch source, `eval_ns` returns the arithmetic mean of
the per-batch criterion values: the sum of `criterion(model(a), u)` over all
batches, divided by the number of batches. -/
theorem eval_ns_mean {T : Type} (model : T → T) (val_loader : List (T × T))
    (criterion : T → T → ℚ) (h : val_loader ≠ []) :
    eval_ns model val_loader criterion =
      .ok ((val_loader.map (fun b => criterion (model b.2) b.1)).sum
            / (val_loader.length : ℚ)) := by
  unfold eval_ns
  rw [if_neg (by simpa using h), foldl_add_eq_sum]
  simp

/-- Witness for C5: identity model, subtraction criterion, two batches with
values `1` and `1`; the evaluator returns their mean `1`. -/
theorem eval_ns_mean_witness :
    eval_ns (fun x : ℚ => x) [((3 : ℚ), (4 : ℚ)), (1, 2)]
      (fun o u => o - u) = .ok 1 := by
  rw [eval_ns_mean (fun x : ℚ => x) [((3 : ℚ), (4 : ℚ)), (1, 2)]
    (fun o u => o - u) (by simp)]
  norm_num

/-- C7 counterexample: on a run where no GPU is available
(`torch.cuda.is_available()` is false), `subprocess` never seeds the framework
GPU RNG — the claim that every run seeds all three sources fails. -/
theorem cpu_run_skips_cuda_seed :
    Event.seedCudaAll 7 ∉ subprocessTrace false 7 none false := by
  decide

/-- C7 (amended): on every run, `subprocess` seeds the general RNG and the
framework CPU RNG with `args.seed` strictly before constructing the model,
and it additionally seeds the framework GPU RNG with the same seed (also
before model construction) exactly when a GPU is available. -/
theorem seeding_before_model (cudaAvailable : Bool) (seed : ℤ)
    (ckpt : Option String) (test : Bool) :
    ∃ pre post,
      subprocessTrace cudaAvailable seed ckpt test =
        pre ++ Event.constructModel :: post
      ∧ Event.constructModel ∉ pre
      ∧ Event.seedTorch seed ∈ pre
      ∧ Event.seedRandom seed ∈ pre
      ∧ (Event.seedCudaAll seed ∈ pre ↔ cudaAvailable = true) := by
  refine ⟨Event.loadConfig :: seedEvents cudaAvailable seed,
    (match ckpt with | some p => [Event.loadCkpt p] | none => [])
      ++ [if test then Event.runTest else Event.runTrain],
    ?_, ?_, ?_, ?_, ?_⟩ <;>
  cases cudaAvailable <;>
  simp [subprocessTrace, seedEvents]

/-- The `(iter, saved)` projection of the loop trace does not depend on the
model mode: from start index `e0`, it is determined by the save cadence
alone. -/
theorem loopFrom_iter_saved (eval_step save_step : ℕ) (logdir : String) :
    ∀ (n : ℕ) (mode : Bool) (e0 : ℕ),
      (loopFrom eval_step save_step logdir mode e0 n).map
          (fun l => (l.iter, l.saved)) =
        (List.range' e0 n).map (fun e =>
          (e, if e % save_step = 0 then some (ckptPath logdir e) else none))
  | 0, _, _ => rfl
  | n + 1, mode, e0 => by
    have ih := loopFrom_iter_saved eval_step save_step logdir n
      (if e0 % eval_step = 0 then false else mode) (e0 + 1)
    simp only [loopFrom, runIter, List.map_cons, List.range'_succ, ih]

/-- C6: during a `train_ns` run of `num_iter` iterations with
`save_step > 0`, a checkpoint is written to
`exp/<logdir>/ckpts/model-<e>.pt` exactly at those iterations `e` with
`e % save_step == 0` (in particular at iteration `0`), and at no other
iteration. -/
theorem checkpoint_cadence (num_iter eval_step save_step : ℕ)
    (logdir : String) (_hs : 0 < save_step) (e : ℕ) (p : String) :
    (e, p) ∈ savedCkpts num_iter eval_step save_step logdir ↔
      e < num_iter ∧ e % save_step = 0 ∧ p = ckptPath logdir e := by
  have hproj := loopFrom_iter_saved eval_step save_step logdir num_iter true 0
  unfold savedCkpts train_ns_trace
  have hfm :
      (loopFrom eval_step save_step logdir true 0 num_iter).filterMap
          (fun l => l.saved.map (fun q => (l.iter, q))) =
        (loopFrom eval_step save_step logdir true 0 num_iter).filterMap
          ((fun pr : ℕ × Option String => pr.2.map (fun q => (pr.1, q))) ∘
            (fun l => (l.iter, l.saved))) := rfl
  rw [hfm, ← List.filterMap_map, hproj, List.filterMap_map,
    List.mem_filterMap]
  constructor
  · rintro ⟨a, ha, hfa⟩
    rw [List.mem_range'_1] at ha
    by_cases hmod : a % save_step = 0
    · simp only [Function.comp, hmod, if_pos, Option.map_some',
        Option.some.injEq, Prod.mk.injEq] at hfa
      obtain ⟨rfl, rfl⟩ := hfa
      exact ⟨by omega, hmod, rfl⟩
    · simp [Function.comp, hmod] at hfa
  · rintro ⟨hlt, hmod, hp⟩
    refine ⟨e, List.mem_range'_1.mpr ⟨Nat.zero_le e, by omega⟩, ?_⟩
    simp [Function.comp, hmod, hp]

/-- Witness for C6: a 5-iteration run with `save_step = 2` writes the
checkpoint of iteration `2` to `exp/run/ckpts/model-2.pt`. -/
theorem checkpoint_cadence_witness :
    (2, "exp/run/ckpts/model-2.pt") ∈ savedCkpts 5 1 2 "run" :=
  (checkpoint_cadence 5 1 2 "run" (by decide) 2
    "exp/run/ckpts/model-2.pt").mpr ⟨by decide, by decide, by decide⟩

/-- Once the model is in evaluation mode at the start of an iteration, every
forward pass from there on runs in evaluation mode: nothing in the loop ever
switches the model back to training mode. -/
theorem loopFrom_evalMode_sticky (eval_step save_step : ℕ) (logdir : String) :
    ∀ (n e0 : ℕ) (l : IterLog),
      l ∈ loopFrom eval_step save_step logdir false e0 n →
        l.forwardMode = false
  | 0, _, l, h => absurd h (List.not_mem_nil l)
  | n + 1, e0, l, h => by
    simp only [loopFrom, runIter, List.mem_cons, ite_self] at h
    rcases h with h | h
    · rw [h]
    · exact loopFrom_evalMode_sticky eval_step save_step logdir n (e0 + 1) l h

/-- C8: `eval_ns` sets the model to evaluation mode and neither `eval_ns` nor
`train_ns` ever restores training mode, so after the validation pass of
iteration `0` (which runs because `0 % eval_step == 0`), every subsequent
training iteration runs its forward pass with the model still in evaluation
mode. -/
theorem eval_mode_sticky (num_iter eval_step save_step : ℕ) (logdir : String)
    (_he : 0 < eval_step) (l : IterLog)
    (hmem : l ∈ train_ns_trace num_iter eval_step save_step logdir)
    (hpos : 1 ≤ l.iter) :
    l.forwardMode = false := by
  cases num_iter with
  | zero => exact absurd hmem (List.not_mem_nil l)
  | succ n =>
    simp only [train_ns_trace, loopFrom, runIter, List.mem_cons] at hmem
    rcases hmem with h | h
    · rw [h] at hpos; simp at hpos
    · have h' : l ∈ loopFrom eval_step save_step logdir false 1 n := by
        simpa using h
      exact loopFrom_evalMode_sticky eval_step save_step logdir n 1 l h'

/-- Witness for C8: in a 3-iteration run with `eval_step = 1`,
`save_step = 3`, iteration `1`'s forward pass runs in evaluation mode. -/
theorem eval_mode_sticky_witness :
    (IterLog.mk 1 false true none).forwardMode = false :=
  eval_mode_sticky 3 1 3 "d" (by decide) (IterLog.mk 1 false true none)
    (by decide) (by decide)

/-- C4 counterexample: with `pde_res = [4,4,9]`, `data_res = [8,8,5]` the
ratio `pde_res[0]/data_res[0] = 4/8` is not an exact integer, yet the
pipeline does not proceed silently: `s_step` floors to `0` and the strided
slice raises `ValueError` (Python forbids slice step `0`). -/
theorem upsampling_config_raises :
    ¬ ((8 : ℕ) ∣ 4)
      ∧ subsamplePlan (4, 4, 9) (8, 8, 5) =
          .error "ValueError: slice step cannot be zero" :=
  ⟨by decide, rfl⟩

/-- When the divisors and both floor-divided strides are nonzero, the
subsampling pipeline succeeds, with each sliced axis of length
`ceil(len/step)` and temporal indices `0, t_step, 2*t_step, ...`. -/
theorem subsamplePlan_ok (p0 p1 p2 d0 d1 d2 : ℕ)
    (h0 : d0 ≠ 0) (hq : d2 - 1 ≠ 0) (hs : p0 / d0 ≠ 0)
    (ht : (p2 - 1) / (d2 - 1) ≠ 0) :
    subsamplePlan (p0, p1, p2) (d0, d1, d2) =
      .ok (((p0 + p0 / d0 - 1) / (p0 / d0),
            (p1 + p0 / d0 - 1) / (p0 / d0),
            (p2 + (p2 - 1) / (d2 - 1) - 1) / ((p2 - 1) / (d2 - 1))),
           (List.range
              ((p2 + (p2 - 1) / (d2 - 1) - 1) / ((p2 - 1) / (d2 - 1)))).map
             (· * ((p2 - 1) / (d2 - 1)))) := by
  unfold subsamplePlan computeSteps subsampleShape sliceIndices pyFloorDiv
  simp [if_neg h0, if_neg hq, if_neg hs, if_neg ht]

/-- C4 (amended): for every configuration with positive floor-divided strides
(`1 ≤ data_res[0] ≤ pde_res[0]` and `2 ≤ data_res[2] ≤ pde_res[2]`) in which
`pde_res[0]/data_res[0]` or `(pde_res[2]-1)/(data_res[2]-1)` is not an exact
integer, the stride computation and the strided-slice subsampling do not
raise; they silently proceed with floor-divided strides and the slices are
misaligned: either the subsampled shape differs from `data_res`, or the
temporal slice omits the final time index `pde_res[2]-1`. (The restriction is
forced: when `data_res[0] > pde_res[0]` the spatial stride floors to `0` and
slicing raises `ValueError`.) -/
theorem nonexact_strides_misalign (p0 p1 p2 d0 d1 d2 : ℕ)
    (h0 : 0 < d0) (h1 : d0 ≤ p0) (h2 : 2 ≤ d2) (h3 : d2 ≤ p2)
    (hne : ¬ d0 ∣ p0 ∨ ¬ (d2 - 1) ∣ (p2 - 1)) :
    ∃ shape tIdx,
      subsamplePlan (p0, p1, p2) (d0, d1, d2) = .ok (shape, tIdx)
        ∧ (shape ≠ (d0, d1, d2) ∨ (p2 - 1) ∉ tIdx) := by
  have hs1 : 1 ≤ p0 / d0 := (Nat.one_le_div_iff h0).mpr h1
  have ht1 : 1 ≤ (p2 - 1) / (d2 - 1) :=
    (Nat.one_le_div_iff (by omega)).mpr (by omega)
  refine ⟨_, _, subsamplePlan_ok p0 p1 p2 d0 d1 d2 (by omega) (by omega)
    (Nat.pos_iff_ne_zero.mp hs1) (Nat.pos_iff_ne_zero.mp ht1), ?_⟩
  rcases hne with hA | hB
  · left
    have hr : p0 % d0 ≠ 0 := fun h => hA (Nat.dvd_of_mod_eq_zero h)
    have hdm := Nat.div_add_mod p0 d0
    obtain ⟨s, hS⟩ : ∃ s, p0 / d0 = s := ⟨_, rfl⟩
    rw [hS] at hs1 hdm ⊢
    have hgt : d0 + 1 ≤ (p0 + s - 1) / s := by
      rw [Nat.le_div_iff_mul_le (by omega : 0 < s)]
      obtain ⟨q, hq'⟩ : ∃ q, d0 * s = q := ⟨_, rfl⟩
      obtain ⟨r, hr'⟩ : ∃ r, p0 % d0 = r := ⟨_, rfl⟩
      rw [hq', hr'] at hdm
      rw [hr'] at hr
      have hmul : (d0 + 1) * s = q + s := by rw [← hq']; ring
      omega
    intro hcontra
    have h1c : (p0 + s - 1) / s = d0 := by
      simpa using congrArg Prod.fst hcontra
    omega
  · have hrB : (p2 - 1) % (d2 - 1) ≠ 0 := fun h => hB (Nat.dvd_of_mod_eq_zero h)
    have hdmB := Nat.div_add_mod (p2 - 1) (d2 - 1)
    obtain ⟨t, hT⟩ : ∃ t, (p2 - 1) / (d2 - 1) = t := ⟨_, rfl⟩
    rw [hT] at ht1 hdmB ⊢
    by_cases hdvd : t ∣ (p2 - 1)
    · left
      obtain ⟨k, hk⟩ := hdvd
      intro hcontra
      have h3c : (p2 + t - 1) / t = d2 := by
        simpa using congrArg (fun x : Res3 => x.2.2) hcontra
      have harg : p2 + t - 1 = (p2 - 1) + t := by omega
      rw [harg, Nat.add_div_right _ (by omega : 0 < t)] at h3c
      have hkdiv : (p2 - 1) / t = k := by
        rw [hk, Nat.mul_div_cancel_left k (by omega : 0 < t)]
      rw [hkdiv] at h3c
      obtain ⟨w, hw⟩ : ∃ w, (d2 - 1) * t = w := ⟨_, rfl⟩
      obtain ⟨r, hrw⟩ : ∃ r, (p2 - 1) % (d2 - 1) = r := ⟨_, rfl⟩
      rw [hw, hrw] at hdmB
      rw [hrw] at hrB
      have hk2 : p2 - 1 = w := by
        rw [hk, show k = d2 - 1 by omega, mul_comm, hw]
      omega
    · right
      intro hmem
      rw [List.mem_map] at hmem
      obtain ⟨j, _, hjt⟩ := hmem
      exact hdvd ⟨j, hjt.symm.trans (mul_comm j t)⟩

/-- Witness for C4 (amended): `pde_res = [9,9,9]`, `data_res = [4,4,5]` —
the spatial ratio `9/4` is not exact; the pipeline succeeds and misaligns. -/
theorem nonexact_strides_misalign_witness :
    ∃ shape tIdx,
      subsamplePlan (9, 9, 9) (4, 4, 5) = .ok (shape, tIdx)
        ∧ (shape ≠ (4, 4, 5) ∨ (9 - 1 : ℕ) ∉ tIdx) :=
  nonexact_strides_misalign 9 9 9 4 4 5 (by decide) (by decide) (by decide)
    (by decide) (Or.inl (by decide))

end PinoTrain
